import Mathlib

/-! # gitlab.nvim backend: request pipeline and startup

A shallow embedding of the Go sources

* `cmd/app/server.go`  (`withMr`, `checkServer`),
* `cmd/client.go`      (`Client.init`, `Client.handleError`),
* `cmd/middleware.go`  (`FileMiddleware`),

followed by the properties of the specification that concern them.

Conventions of the embedding.

* A Go `error` value is `Option String`: `none` is `nil`, `some s` is an error
  whose `Error()` text is `s`.
* An `http.ResponseWriter` is the list of calls made on it, oldest first.
* Memory reached through pointers shared between handlers (`*ProjectInfo`,
  `*git.GitProjectInfo`) and the history of calls to the remote client are
  passed explicitly as an `Env`.
* A Go run-time panic is the `panicked` constructor of `Outcome`.
-/

namespace GitlabNvim

/-! ## Data model -/

/-- Go `ErrorResponse`, the Failure variant of the response envelope. The type
declaration is not part of the sources at hand; its three fields are the ones
`Client.handleError` fills (`cmd/client.go`, lines 153-157). -/
structure ErrorResponse where
  Message : String
  Details : String
  Status : Int
  deriving DecidableEq, Repr

/-- A value of a JSON object member, as far as the envelope needs it. -/
inductive JsonValue where
  | str (s : String)
  | num (n : Int)
  deriving DecidableEq, Repr

/-- Modelled from the spec: the `json` struct tags of `ErrorResponse` are not
under the sources; the wire form of a Failure is
`{"status": <int>, "message": <string>, "details": <string>}`. The function
gives the member of the encoded object stored under a key, if any. -/
def ErrorResponse.jsonField (e : ErrorResponse) (key : String) : Option JsonValue :=
  if key = "status" then some (JsonValue.num e.Status)
  else if key = "message" then some (JsonValue.str e.Message)
  else if key = "details" then some (JsonValue.str e.Details)
  else none

/-- One call on an `http.ResponseWriter`: `w.WriteHeader(status)`, or the write
performed by `json.NewEncoder(w).Encode(response)`. -/
inductive WriterCall where
  | WriteHeader (status : Int)
  | Encode (response : ErrorResponse)
  deriving DecidableEq, Repr

/-- An `http.ResponseWriter`, as the calls made on it so far (oldest first). -/
abbrev ResponseWriter := List WriterCall

/-- The part of an `*http.Request` the handlers below can tell apart; `Context`
holds the values of the request context by key. -/
structure Request where
  Method : String
  Path : String
  Body : String
  Context : List (String × String)
  deriving DecidableEq, Repr

/-- Go `ProjectInfo` (fields used by `withMr`). `MergeId = 0` means that the
merge request of the session has not been resolved yet. -/
structure ProjectInfo where
  ProjectId : String
  MergeId : Int
  deriving DecidableEq, Repr

/-- Go `git.GitProjectInfo` (field used by `withMr`). -/
structure GitProjectInfo where
  BranchName : String
  deriving DecidableEq, Repr

/-- Go `gitlab.ListProjectMergeRequestsOptions` (the fields the code sets);
an unset pointer field is `none`. -/
structure ListProjectMergeRequestsOptions where
  Scope : Option String
  State : Option String
  SourceBranch : Option String
  deriving DecidableEq, Repr

/-- Go `gitlab.MergeRequest` (field used by the code). -/
structure MergeRequest where
  IID : Int
  deriving DecidableEq, Repr

/-- What `ListProjectMergeRequests` returns: `(mergeRequests, _, err)`. -/
structure ListResult where
  mergeRequests : List MergeRequest
  err : Option String
  deriving DecidableEq, Repr

/-- A performed `ListProjectMergeRequests(pid, opt)` call with its result. -/
structure ListCall where
  pid : String
  opt : ListProjectMergeRequestsOptions
  result : ListResult
  deriving DecidableEq, Repr

/-- The `MergeRequestLister` capability: the answer of the remote side to a
call, which may depend on the calls made before it. -/
abbrev MergeRequestLister :=
  List ListCall → String → ListProjectMergeRequestsOptions → ListResult

/-- State shared by all handlers of the process: the pointees of
`data.projectInfo` and `data.gitInfo`, and the calls made on the lister. -/
structure Env where
  projectInfo : ProjectInfo
  gitInfo : GitProjectInfo
  calls : List ListCall
  deriving DecidableEq, Repr

/-- Go `http.HandlerFunc`: a handler acts on its response writer and on the
shared state. -/
abbrev HandlerFunc := ResponseWriter → Request → Env → ResponseWriter × Env

/-- Go `http.Handler` of package `main`, over whatever state `σ` its handlers
share. -/
abbrev Handler (σ : Type) := ResponseWriter → Request → σ → ResponseWriter × σ

/-- Result of running code that may panic. -/
inductive Outcome (α : Type) where
  | returned (value : α)
  | panicked (msg : String)
  deriving DecidableEq, Repr

/-! ## `cmd/client.go`: the error envelope -/

/-- Go `*gitlab.Client`, kept as the data `gitlab.NewClient` built it from. -/
structure GitlabClient where
  token : String
  baseURL : String
  requestLogHook : Bool
  responseLogHook : Bool
  deriving DecidableEq, Repr

/-- Go `Client` (`cmd/client.go`, lines 16-25). -/
structure Client where
  command : String
  projectId : String
  mergeId : Int
  gitlabInstance : String
  authToken : String
  logPath : String
  debug : Bool
  git : Option GitlabClient
  deriving DecidableEq, Repr

/-- `Client.handleError` (`cmd/client.go`, lines 151-159): `err` is the text
`err.Error()` of the (non-nil) error. -/
def Client.handleError (_c : Client) (w : ResponseWriter) (err : String)
    (message : String) (status : Int) : ResponseWriter :=
  let w := w ++ [WriterCall.WriteHeader status]
  let response : ErrorResponse :=
    { Message := message
      Details := err
      Status := status }
  w ++ [WriterCall.Encode response]

/-- Modelled from the spec: the package-level `handleError` of `cmd/app` that
`withMr` calls is not under the sources. It writes the Failure variant (status
code, human message, detail string drawn from the triggering error), as its
sibling `Client.handleError` does. -/
def handleError (w : ResponseWriter) (err : String) (message : String)
    (status : Int) : ResponseWriter :=
  w ++ [WriterCall.WriteHeader status,
        WriterCall.Encode { Message := message, Details := err, Status := status }]

/-! ## `cmd/app/server.go`: the context resolver -/

/-- `http.StatusInternalServerError`. -/
def StatusInternalServerError : Int := 500

/-- `http.StatusBadRequest`. -/
def StatusBadRequest : Int := 400

/-- The `options` of `withMr` (`cmd/app/server.go`, lines 164-168): opened merge
requests of any scope whose source branch is the branch of the session. -/
def withMr.options (c : Env) : ListProjectMergeRequestsOptions :=
  { Scope := some "all"
    State := some "opened"
    SourceBranch := some c.gitInfo.BranchName }

/-- The body of the `if c.projectInfo.MergeId == 0` block of `withMr`
(`cmd/app/server.go`, lines 163-184): `Except.error` is an early `return`
with the state it leaves, `Except.ok` falls through to the call of `next`. -/
def withMr.resolve (client : MergeRequestLister) (w : ResponseWriter) (c : Env) :
    Except (ResponseWriter × Env) Env :=
  if c.projectInfo.MergeId = 0 then
    let options := withMr.options c
    let result := client c.calls c.projectInfo.ProjectId options
    let c := { c with calls := c.calls ++ [⟨c.projectInfo.ProjectId, options, result⟩] }
    match result.err with
    | some err =>
      Except.error
        (handleError w ("Failed to list merge requests: " ++ err)
          "Failed to list merge requests" StatusInternalServerError, c)
    | none =>
      match result.mergeRequests with
      | [] =>
        let err := "No merge requests found for branch '" ++ c.gitInfo.BranchName ++ "'"
        Except.error (handleError w err "No merge requests found" StatusBadRequest, c)
      | mr :: _ =>
        let mergeIdInt := mr.IID
        Except.ok { c with projectInfo := { c.projectInfo with MergeId := mergeIdInt } }
  else
    Except.ok c

/-- `withMr` (`cmd/app/server.go`, lines 159-189): the middleware that resolves
the merge request of the session before calling `next`. -/
def withMr (next : HandlerFunc) (client : MergeRequestLister) : HandlerFunc :=
  fun w r c =>
    match withMr.resolve client w c with
    | Except.error out => out
    | Except.ok c => next w r c

/-- The HTTP server handling requests one after another on routes wrapped by
`withMr` (`CreateRouter`, `cmd/app/server.go`, lines 109-111): each request
comes with the handler of its route and gets a fresh response writer; the
shared state is threaded through. -/
def serveAll (client : MergeRequestLister) :
    List (HandlerFunc × Request) → Env → List ResponseWriter × Env
  | [], c => ([], c)
  | (next, r) :: rest, c =>
    let out := withMr next client [] r c
    let outs := serveAll client rest out.2
    (out.1 :: outs.1, outs.2)

/-- The wrapped handler leaves the merge request of the session and the call
history of the lister as it found them (the services behind `withMr` read
`projectInfo.MergeId`; none of them is part of the sources at hand). -/
def KeepsSession (next : HandlerFunc) : Prop :=
  ∀ (w : ResponseWriter) (r : Request) (c : Env),
    (next w r c).2.projectInfo.MergeId = c.projectInfo.MergeId ∧
    (next w r c).2.calls = c.calls

/-! ## `cmd/app/server.go`: the context resolver under concurrent requests

`net/http` serves every connection on a goroutine of its own, so several runs
of the closure returned by `withMr` can be under way at once on the same
`projectInfo`. The closure takes no lock. Its run is cut at its accesses to
the shared state: the read of `MergeId` (line 163), the lookup (line 170), the
store to `MergeId` (line 183) and the call of `next` (line 187). A schedule
picks which goroutine takes its next step. -/

/-- Where a run of the closure returned by `withMr` stands: before the read of
`MergeId` (line 163), before the lookup (line 170), before the store of the IID
it found (line 183), before the call of `next` (line 187), or returned. -/
inductive Pc where
  | check
  | lookup
  | store (mergeIdInt : Int)
  | callNext
  | done
  deriving DecidableEq, Repr

/-- One request in flight: the wrapped handler and the request, the response
writer, where the run stands, the `MergeId` of the session at the moment the
wrapped handler was called (`none` while it has not been), and the number of
lookups this request has made. -/
structure Goroutine where
  next : HandlerFunc
  r : Request
  w : ResponseWriter
  pc : Pc
  seen : Option Int
  lookups : Nat

/-- One step of a goroutine on the shared state, following `withMr`
(`cmd/app/server.go`, lines 161-188). -/
def Goroutine.step (client : MergeRequestLister) (c : Env) (g : Goroutine) :
    Env × Goroutine :=
  match g.pc with
  | Pc.check =>
    if c.projectInfo.MergeId = 0 then (c, { g with pc := Pc.lookup })
    else (c, { g with pc := Pc.callNext })
  | Pc.lookup =>
    let options := withMr.options c
    let result := client c.calls c.projectInfo.ProjectId options
    let c := { c with calls := c.calls ++ [⟨c.projectInfo.ProjectId, options, result⟩] }
    let g := { g with lookups := g.lookups + 1 }
    match result.err with
    | some err =>
      (c, { g with
              w := handleError g.w ("Failed to list merge requests: " ++ err)
                "Failed to list merge requests" StatusInternalServerError
              pc := Pc.done })
    | none =>
      match result.mergeRequests with
      | [] =>
        let err := "No merge requests found for branch '" ++ c.gitInfo.BranchName ++ "'"
        (c, { g with
                w := handleError g.w err "No merge requests found" StatusBadRequest
                pc := Pc.done })
      | mr :: _ => (c, { g with pc := Pc.store mr.IID })
  | Pc.store mergeIdInt =>
    ({ c with projectInfo := { c.projectInfo with MergeId := mergeIdInt } },
     { g with pc := Pc.callNext })
  | Pc.callNext =>
    let out := g.next g.w g.r c
    (out.2, { g with w := out.1, seen := some c.projectInfo.MergeId, pc := Pc.done })
  | Pc.done => (c, g)

/-- The goroutine at position `i` takes one step; a position past the end
leaves everything as it is. -/
def stepAt (client : MergeRequestLister) : Nat → Env → List Goroutine → Env × List Goroutine
  | _, c, [] => (c, [])
  | 0, c, g :: gs =>
    let out := g.step client c
    (out.1, out.2 :: gs)
  | i + 1, c, g :: gs =>
    let out := stepAt client i c gs
    (out.1, g :: out.2)

/-- The goroutines take steps in the order the schedule names them. -/
def runSchedule (client : MergeRequestLister) :
    List Nat → Env → List Goroutine → Env × List Goroutine
  | [], c, gs => (c, gs)
  | i :: rest, c, gs =>
    let out := stepAt client i c gs
    runSchedule client rest out.1 out.2

/-- The requests as they arrive: every goroutine is about to read `MergeId` and
has written nothing. -/
def arrive (reqs : List (HandlerFunc × Request)) : List Goroutine :=
  reqs.map fun p =>
    { next := p.1, r := p.2, w := [], pc := Pc.check, seen := none, lookups := 0 }

/-- The run of the goroutine can still reach the lookup: it has not got past
line 170. -/
def Pc.mayLookup : Pc → Bool
  | Pc.check => true
  | Pc.lookup => true
  | _ => false

/-- The goroutine is not between its read of `MergeId` and its store, its
wrapped handler leaves the session alone, and if that handler has been called
it was with `MergeId = id`; a goroutine that has returned did call it. -/
def Goroutine.settled (id : Int) (g : Goroutine) : Prop :=
  KeepsSession g.next ∧
  (g.pc = Pc.check ∨ g.pc = Pc.callNext ∨ g.pc = Pc.done) ∧
  (g.seen = none ∨ g.seen = some id) ∧
  (g.pc = Pc.done → g.seen = some id)

/-- Every goroutine has returned. -/
def allDone (gs : List Goroutine) : Bool :=
  gs.all fun g => g.pc = Pc.done

/-- A lister that finds merge request 7 when called first and merge request 9
on every later call. -/
def listerSevenThenNine : MergeRequestLister :=
  fun calls _ _ =>
    if calls.length = 0 then { mergeRequests := [⟨7⟩], err := none }
    else { mergeRequests := [⟨9⟩], err := none }

/-! ## `cmd/app/server.go`: the readiness probe -/

/-- Go `*http.Response` (field used by `checkServer`). -/
structure Response where
  StatusCode : Int
  deriving DecidableEq, Repr

/-- What `http.Get` returns: `(resp, err)`; `resp = none` is the nil pointer. -/
structure GetResult where
  resp : Option Response
  err : Option String
  deriving DecidableEq, Repr

/-- Go `fmt.Sprintf("%d", n)`. -/
def fmtInt (n : Int) : String :=
  toString n

/-- A run of `checkServer`: the number of `http.Get` calls made, the number of
`time.Sleep` calls made, and how the function ended. -/
structure CheckRun where
  attempts : Nat
  sleeps : Nat
  result : Outcome (Option String)
  deriving DecidableEq, Repr

/-- The loop `for i := 0; i < 10; i++` of `checkServer` from index `i` with
`remaining = 10 - i` iterations to go. `httpGet i url` is the outcome of the
`http.Get` of iteration `i`. Evaluating `resp.StatusCode` on a nil `resp` is a
nil pointer dereference. -/
def checkServer.loop (httpGet : Nat → String → GetResult) (port : Int) :
    (remaining : Nat) → (i : Nat) → CheckRun
  | 0, i => ⟨i, i, Outcome.returned (some "Could not start server!")⟩
  | remaining + 1, i =>
    let got := httpGet i ("http://localhost:" ++ fmtInt port ++ "/ping")
    match got.resp with
    | none =>
      ⟨i + 1, i, Outcome.panicked "invalid memory address or nil pointer dereference"⟩
    | some resp =>
      if resp.StatusCode = 200 ∧ got.err = none then
        ⟨i + 1, i, Outcome.returned none⟩
      else
        checkServer.loop httpGet port remaining (i + 1)

/-- `checkServer` (`cmd/app/server.go`, lines 134-145). -/
def checkServer (httpGet : Nat → String → GetResult) (port : Int) : CheckRun :=
  checkServer.loop httpGet port 10 0

/-! ## `cmd/client.go`: start-up of the client -/

/-- Go `DebugSettings` (`cmd/client.go`, lines 27-30). -/
structure DebugSettings where
  GoRequest : Bool
  GoResponse : Bool
  deriving DecidableEq, Repr

/-- The library calls `Client.init` makes, as parameters: `json.Unmarshal` into
a `DebugSettings`, `fmt.Sprintf` of a format without arguments,
`gitlab.NewClient` (token, base URL, whether the request and the response log
hooks are installed) and the remote `ListProjectMergeRequests` of the client
it built. -/
structure InitSys where
  jsonUnmarshal : String → Except String DebugSettings
  Sprintf : String → String
  NewClient : String → String → Bool → Bool → Except String GitlabClient
  ListProjectMergeRequests :
    GitlabClient → String → ListProjectMergeRequestsOptions → ListResult

/-- A run of `Client.init`: the receiver as the call leaves it, the remote API
calls made, and how the call ended (the returned `error`, or a panic). -/
structure InitRun where
  client : Client
  remoteCalls : List ListCall
  result : Outcome (Option String)
  deriving DecidableEq, Repr

/-- Go indexing `os.Args[i]`: out of range is a run-time panic. -/
def index (osArgs : List String) (i : Nat) : Outcome String :=
  match osArgs[i]? with
  | some v => Outcome.returned v
  | none =>
    Outcome.panicked
      ("index out of range [" ++ toString i ++ "] with length " ++ toString osArgs.length)

/-- `Client.init` (`cmd/client.go`, lines 67-149) run on the argument vector
`osArgs` (Go `os.Args`). -/
def Client.init (sys : InitSys) (osArgs : List String) (c : Client)
    (branchName : String) : InitRun :=
  if osArgs.length < 5 then
    ⟨c, [], Outcome.returned
      (some "Must provide project ID, gitlab instance, port, and auth token!")⟩
  else
  match index osArgs 1 with
  | Outcome.panicked msg => ⟨c, [], Outcome.panicked msg⟩
  | Outcome.returned projectId =>
  match index osArgs 2 with
  | Outcome.panicked msg => ⟨c, [], Outcome.panicked msg⟩
  | Outcome.returned gitlabInstance =>
  match index osArgs 4 with
  | Outcome.panicked msg => ⟨c, [], Outcome.panicked msg⟩
  | Outcome.returned authToken =>
  match index osArgs 5 with
  | Outcome.panicked msg => ⟨c, [], Outcome.panicked msg⟩
  | Outcome.returned debugSettings =>
  match sys.jsonUnmarshal debugSettings with
  | Except.error err =>
    ⟨c, [], Outcome.returned
      (some ("Could not parse debug settings: " ++ err ++ ", " ++ debugSettings))⟩
  | Except.ok debugObject =>
  match index osArgs (osArgs.length - 1) with
  | Outcome.panicked msg => ⟨c, [], Outcome.panicked msg⟩
  | Outcome.returned logPath =>
  if projectId = "" then
    ⟨c, [], Outcome.returned (some "Project ID cannot be empty")⟩
  else if gitlabInstance = "" then
    ⟨c, [], Outcome.returned (some "GitLab instance URL cannot be empty")⟩
  else if authToken = "" then
    ⟨c, [], Outcome.returned (some "Auth token cannot be empty")⟩
  else
  let c := { c with gitlabInstance := gitlabInstance, projectId := projectId,
                    authToken := authToken, logPath := logPath }
  let apiCustUrl := sys.Sprintf (c.gitlabInstance ++ "/api/v4")
  match sys.NewClient authToken apiCustUrl debugObject.GoRequest debugObject.GoResponse with
  | Except.error err =>
    ⟨c, [], Outcome.returned (some ("Failed to create client: " ++ err))⟩
  | Except.ok git =>
  let options : ListProjectMergeRequestsOptions :=
    { Scope := some "all"
      State := some "opened"
      SourceBranch := some branchName }
  let listed := sys.ListProjectMergeRequests git c.projectId options
  let remoteCalls : List ListCall := [⟨c.projectId, options, listed⟩]
  match listed.err with
  | some err =>
    ⟨c, remoteCalls, Outcome.returned (some ("Failed to list merge requests: " ++ err))⟩
  | none =>
  match listed.mergeRequests with
  | [] => ⟨c, remoteCalls, Outcome.returned (some "No merge requests found")⟩
  | mr :: _ =>
  let mergeId := toString mr.IID
  match mergeId.toInt? with
  | none => ⟨c, remoteCalls, Outcome.returned (some ("strconv.Atoi: parsing " ++ mergeId))⟩
  | some mergeIdInt =>
  ⟨{ c with mergeId := mergeIdInt, git := some git }, remoteCalls, Outcome.returned none⟩

/-! ## `cmd/middleware.go`: the attachment middleware -/

/-- Go `AttachmentRequest` (`cmd/middleware.go`, lines 19-22). -/
structure AttachmentRequest where
  FilePath : String
  FileName : String
  deriving DecidableEq, Repr

/-- The outcomes of the library calls of `FileMiddleware`, as parameters:
`io.ReadAll(r.Body)`, `json.Unmarshal(body, &attachmentRequest)` (the request
as the call leaves it, and the error), `os.Open(path)` (the opened file is
named by its path) and `io.ReadAll(file)`. `io.ReadAll` returns the bytes read
so far together with the error, if any. -/
structure FileSys where
  readBody : Request → String × Option String
  jsonUnmarshal : String → AttachmentRequest × Option String
  osOpen : String → Except String String
  readFile : String → String × Option String

/-- `fileReaderKey` (`cmd/middleware.go`, lines 26-28). -/
def fileReaderKey : String := "fileReader"

/-- Modelled from the spec: the package-level `HandleError` of package `main`
that `FileMiddleware` calls is not under the sources. It writes the Failure
variant (status code, human message, detail string drawn from the triggering
error), as its sibling `Client.handleError` does. -/
def HandleError (w : ResponseWriter) (err : String) (message : String)
    (status : Int) : ResponseWriter :=
  w ++ [WriterCall.WriteHeader status,
        WriterCall.Encode { Message := message, Details := err, Status := status }]

/-- `FileMiddleware` (`cmd/middleware.go`, lines 30-74). The check of lines
49-52 tests the `err` of lines 43-47 a second time. The branch of lines 61-63
has no `return`: control goes on to line 65. -/
def FileMiddleware {σ : Type} (sys : FileSys) (next : Handler σ) : Handler σ :=
  fun w r s =>
    let (body, err) := sys.readBody r
    match err with
    | some e => (HandleError w e "Could not read request body" StatusBadRequest, s)
    | none =>
    let (attachmentRequest, err) := sys.jsonUnmarshal body
    match err with
    | some e => (HandleError w e "Could not unmarshal JSON" StatusBadRequest, s)
    | none =>
    match err with
    | some e =>
      (HandleError w e ("Could not read " ++ attachmentRequest.FilePath) StatusBadRequest, s)
    | none =>
    match sys.osOpen attachmentRequest.FilePath with
    | Except.error e =>
      (HandleError w e ("Could not read " ++ attachmentRequest.FilePath) StatusBadRequest, s)
    | Except.ok file =>
    let (data, err) := sys.readFile file
    let w :=
      match err with
      | some e =>
        HandleError w e ("Error reading file " ++ attachmentRequest.FilePath) StatusBadRequest
      | none => w
    let requestWithReader : Request :=
      { r with Context := [(fileReaderKey, data)], Body := body }
    next w requestWithReader s

/-- The lookup returned no error and a non-empty list. -/
def ListCall.foundSome (k : ListCall) : Bool :=
  k.result.err.isNone && !k.result.mergeRequests.isEmpty

/-- The identifier a lookup resolves the session to: the IID of the first
element when the lookup returned no error and a non-empty list and that IID is
not 0, the value that stands for "unresolved". -/
def ListCall.resolved (k : ListCall) : Option Int :=
  match k.result.err, k.result.mergeRequests with
  | none, mr :: _ => if mr.IID = 0 then none else some mr.IID
  | _, _ => none

/-- The probe succeeded: a response with status 200 and no error. -/
def GetResult.ready (got : GetResult) : Bool :=
  match got.resp with
  | some resp => decide (resp.StatusCode = 200 ∧ got.err = none)
  | none => false

/-- The URL `checkServer` probes. -/
def pingURL (port : Int) : String :=
  "http://localhost:" ++ fmtInt port ++ "/ping"

/-! ## Sample inputs -/

/-- A request to a route wrapped by `withMr`. -/
def sampleRequest : Request :=
  { Method := "POST", Path := "/mr/draft_notes/", Body := "", Context := [] }

/-- A session on branch `feature` of project `42` whose merge request is not
resolved yet. -/
def sampleEnv : Env :=
  { projectInfo := { ProjectId := "42", MergeId := 0 }
    gitInfo := { BranchName := "feature" }
    calls := [] }

/-- A wrapped handler that answers with status 200 and leaves the shared state
alone. -/
def okHandler : HandlerFunc :=
  fun w _ c => (w ++ [WriterCall.WriteHeader 200], c)

/-- A lister that gives the same answer to every call. -/
def listerOf (result : ListResult) : MergeRequestLister :=
  fun _ _ _ => result

/-- Probe outcomes in which the first two attempts are answered with status
503 and the third with status 200. -/
def readyAtThird : Nat → String → GetResult :=
  fun i _ =>
    if i < 2 then { resp := some { StatusCode := 503 }, err := none }
    else { resp := some { StatusCode := 200 }, err := none }

/-- An argument vector of six entries whose auth token is empty. -/
def argsEmptyToken : List String :=
  ["gitlab.nvim", "42", "https://gitlab.com", "8080", "", "\x7b\x7d"]

/-- Library calls for `Client.init` that all succeed and find merge request 7. -/
def friendlySys : InitSys :=
  { jsonUnmarshal := fun _ => Except.ok { GoRequest := false, GoResponse := false }
    Sprintf := fun format => format
    NewClient := fun token baseURL req resp => Except.ok ⟨token, baseURL, req, resp⟩
    ListProjectMergeRequests := fun _ _ _ => { mergeRequests := [⟨7⟩], err := none } }

/-- Outcomes for a request whose file opens and is read without error. -/
def fileSys : FileSys :=
  { readBody := fun r => (r.Body, none)
    jsonUnmarshal := fun _ => ({ FilePath := "/tmp/a.png", FileName := "a.png" }, none)
    osOpen := fun path => Except.ok path
    readFile := fun _ => ("PNG", none) }

/-- Probe outcomes in which the first `http.Get` fails with a transport error
(no response) and every later one would be answered with status 200. -/
def refusedOnce : Nat → String → GetResult :=
  fun i _ =>
    if i = 0 then
      { resp := none, err := some "dial tcp 127.0.0.1:8080: connect: connection refused" }
    else
      { resp := some { StatusCode := 200 }, err := none }

/-- An argument vector with the four required values in place, the project
identifier empty, and nothing after the auth token. -/
def argsEmptyProject : List String :=
  ["gitlab.nvim", "", "https://gitlab.com", "8080", "glpat-token"]

/-- A client before `init`. -/
def freshClient : Client :=
  { command := "", projectId := "", mergeId := 0, gitlabInstance := "", authToken := "",
    logPath := "", debug := false, git := none }

/-- A request to `/attachment` that names the directory `/tmp` as the file to
attach. -/
def attachDirRequest : Request :=
  { Method := "POST", Path := "/attachment",
    Body := "\x7b\"file_path\": \"/tmp\", \"file_name\": \"tmp\"\x7d", Context := [] }

/-- Outcomes for `attachDirRequest`: the body is read and parsed, `os.Open`
succeeds on the directory, and reading it fails. -/
def dirSys : FileSys :=
  { readBody := fun r => (r.Body, none)
    jsonUnmarshal := fun _ => ({ FilePath := "/tmp", FileName := "tmp" }, none)
    osOpen := fun path => Except.ok path
    readFile := fun path => ("", some ("read " ++ path ++ ": is a directory")) }

/-- A handler of package `main` that answers with status 200. -/
def okService : Handler Unit :=
  fun w _ s => (w ++ [WriterCall.WriteHeader 200], s)

/-! # Properties -/

/-! ## The context resolver, one request -/

/-- C1. When `MergeId` is 0 and the lookup returns no error and a non-empty
list, `withMr` stores the IID of the first element in `projectInfo.MergeId`,
writes nothing to the response writer itself (the wrapped handler receives the
writer untouched) and its result is the result of one run of the wrapped
handler on the updated state. -/
theorem withMr_stores_first_IID (next : HandlerFunc) (client : MergeRequestLister)
    (w : ResponseWriter) (r : Request) (c : Env) (mr : MergeRequest)
    (rest : List MergeRequest)
    (hzero : c.projectInfo.MergeId = 0)
    (hlist : client c.calls c.projectInfo.ProjectId (withMr.options c)
      = { mergeRequests := mr :: rest, err := none }) :
    withMr next client w r c
      = next w r
          { projectInfo := { ProjectId := c.projectInfo.ProjectId, MergeId := mr.IID }
            gitInfo := c.gitInfo
            calls := c.calls ++
              [{ pid := c.projectInfo.ProjectId, opt := withMr.options c,
                 result := { mergeRequests := mr :: rest, err := none } }] } := by
  simp [withMr, withMr.resolve, hzero, hlist]

/-- Witness of C1: the session `sampleEnv` against a lister that returns the
merge requests 7 and 9. -/
theorem withMr_stores_first_IID_witness :
    sampleEnv.projectInfo.MergeId = 0 ∧
    withMr okHandler (listerOf ⟨[⟨7⟩, ⟨9⟩], none⟩) [] sampleRequest sampleEnv
      = okHandler [] sampleRequest
          { projectInfo := { ProjectId := "42", MergeId := 7 }
            gitInfo := sampleEnv.gitInfo
            calls := [{ pid := "42", opt := withMr.options sampleEnv,
                        result := ⟨[⟨7⟩, ⟨9⟩], none⟩ }] } :=
  ⟨rfl, withMr_stores_first_IID okHandler (listerOf ⟨[⟨7⟩, ⟨9⟩], none⟩) []
    sampleRequest sampleEnv ⟨7⟩ [⟨9⟩] rfl rfl⟩

/-- C2. When `MergeId` is 0 and the lookup returns no error and an empty list,
`withMr` writes status 400 and the Failure with message "No merge requests
found" whose detail contains the branch name of the session, returns without
running the wrapped handler (the result is the same whatever the handler is)
and leaves `MergeId` equal to 0. -/
theorem withMr_empty_list (next : HandlerFunc) (client : MergeRequestLister)
    (w : ResponseWriter) (r : Request) (c : Env)
    (hzero : c.projectInfo.MergeId = 0)
    (hlist : client c.calls c.projectInfo.ProjectId (withMr.options c)
      = { mergeRequests := [], err := none }) :
    (withMr next client w r c).1
      = w ++ [WriterCall.WriteHeader 400,
              WriterCall.Encode
                { Status := 400, Message := "No merge requests found",
                  Details := "No merge requests found for branch '"
                    ++ c.gitInfo.BranchName ++ "'" }] ∧
    (∃ before after : String,
      "No merge requests found for branch '" ++ c.gitInfo.BranchName ++ "'"
        = before ++ c.gitInfo.BranchName ++ after) ∧
    (∀ other : HandlerFunc, withMr other client w r c = withMr next client w r c) ∧
    (withMr next client w r c).2.projectInfo.MergeId = 0 ∧
    (withMr next client w r c).2.calls
      = c.calls ++ [{ pid := c.projectInfo.ProjectId, opt := withMr.options c,
                      result := { mergeRequests := [], err := none } }] := by
  refine ⟨?_, ⟨"No merge requests found for branch '", "'", rfl⟩, ?_, ?_, ?_⟩ <;>
  simp [withMr, withMr.resolve, hzero, hlist, handleError, StatusBadRequest]

/-- Witness of C2: the session `sampleEnv`, on branch `feature`, against a
lister that finds no merge request. -/
theorem withMr_empty_list_witness :
    sampleEnv.projectInfo.MergeId = 0 ∧
    (withMr okHandler (listerOf ⟨[], none⟩) [] sampleRequest sampleEnv).1
      = [WriterCall.WriteHeader 400,
         WriterCall.Encode
           { Status := 400, Message := "No merge requests found",
             Details := "No merge requests found for branch 'feature'" }] ∧
    (withMr okHandler (listerOf ⟨[], none⟩) [] sampleRequest sampleEnv).2.projectInfo.MergeId
      = 0 :=
  have h := withMr_empty_list okHandler (listerOf ⟨[], none⟩) [] sampleRequest sampleEnv
    rfl rfl
  ⟨rfl, h.1, h.2.2.2.1⟩

/-- C4. When `MergeId` is already non-zero, `withMr` is the wrapped handler: it
makes no lookup (the call history handed on is unchanged), writes nothing to
the response writer, leaves `MergeId` as it is and runs the wrapped handler
once on the unchanged state. -/
theorem withMr_already_resolved (next : HandlerFunc) (client : MergeRequestLister)
    (w : ResponseWriter) (r : Request) (c : Env)
    (hset : c.projectInfo.MergeId ≠ 0) :
    withMr next client w r c = next w r c ∧
    withMr.resolve client w c = Except.ok c := by
  simp [withMr, withMr.resolve, hset]

/-- Witness of C4: a session whose merge request is 7, against a lister that
would answer with merge request 9. -/
theorem withMr_already_resolved_witness :
    ({ sampleEnv with projectInfo := { ProjectId := "42", MergeId := 7 } } : Env).projectInfo.MergeId ≠ 0 ∧
    (withMr okHandler (listerOf ⟨[⟨9⟩], none⟩) [] sampleRequest
        { sampleEnv with projectInfo := { ProjectId := "42", MergeId := 7 } }
      = okHandler [] sampleRequest
          { sampleEnv with projectInfo := { ProjectId := "42", MergeId := 7 } } ∧
     withMr.resolve (listerOf ⟨[⟨9⟩], none⟩) []
        { sampleEnv with projectInfo := { ProjectId := "42", MergeId := 7 } }
      = Except.ok { sampleEnv with projectInfo := { ProjectId := "42", MergeId := 7 } }) :=
  ⟨by decide,
   withMr_already_resolved okHandler (listerOf ⟨[⟨9⟩], none⟩) [] sampleRequest
     { sampleEnv with projectInfo := { ProjectId := "42", MergeId := 7 } } (by decide)⟩

/-- C3 as stated fails: when the lookup fails with the error "connection
refused", the detail `withMr` writes is not that text but "Failed to list merge
requests: connection refused". -/
theorem withMr_lookup_error_detail_is_wrapped :
    (withMr okHandler (listerOf ⟨[], some "connection refused"⟩) [] sampleRequest
        sampleEnv).1
      = [WriterCall.WriteHeader 500,
         WriterCall.Encode
           { Status := 500, Message := "Failed to list merge requests",
             Details := "Failed to list merge requests: connection refused" }] ∧
    (withMr okHandler (listerOf ⟨[], some "connection refused"⟩) [] sampleRequest
        sampleEnv).1
      ≠ [WriterCall.WriteHeader 500,
         WriterCall.Encode
           { Status := 500, Message := "Failed to list merge requests",
             Details := "connection refused" }] := by
  decide

/-- C3, amended. When `MergeId` is 0 and the lookup returns an error `e`,
`withMr` writes status 500 and the Failure with message "Failed to list merge
requests" whose detail is "Failed to list merge requests: " followed by the
text of `e`, returns without running the wrapped handler (the result is the
same whatever the handler is) and leaves `MergeId` equal to 0. -/
theorem withMr_lookup_error (next : HandlerFunc) (client : MergeRequestLister)
    (w : ResponseWriter) (r : Request) (c : Env) (e : String)
    (found : List MergeRequest)
    (hzero : c.projectInfo.MergeId = 0)
    (hlist : client c.calls c.projectInfo.ProjectId (withMr.options c)
      = { mergeRequests := found, err := some e }) :
    (withMr next client w r c).1
      = w ++ [WriterCall.WriteHeader 500,
              WriterCall.Encode
                { Status := 500, Message := "Failed to list merge requests",
                  Details := "Failed to list merge requests: " ++ e }] ∧
    (∀ other : HandlerFunc, withMr other client w r c = withMr next client w r c) ∧
    (withMr next client w r c).2.projectInfo.MergeId = 0 ∧
    (withMr next client w r c).2.calls
      = c.calls ++ [{ pid := c.projectInfo.ProjectId, opt := withMr.options c,
                      result := { mergeRequests := found, err := some e } }] := by
  refine ⟨?_, ?_, ?_, ?_⟩ <;>
  simp [withMr, withMr.resolve, hzero, hlist, handleError, StatusInternalServerError]

/-- Witness of C3, amended: the session `sampleEnv` against a lister that
fails with "connection refused". -/
theorem withMr_lookup_error_witness :
    sampleEnv.projectInfo.MergeId = 0 ∧
    (withMr okHandler (listerOf ⟨[], some "connection refused"⟩) [] sampleRequest
        sampleEnv).2.projectInfo.MergeId = 0 ∧
    (∀ other : HandlerFunc,
      withMr other (listerOf ⟨[], some "connection refused"⟩) [] sampleRequest sampleEnv
        = withMr okHandler (listerOf ⟨[], some "connection refused"⟩) [] sampleRequest
            sampleEnv) :=
  have h := withMr_lookup_error okHandler (listerOf ⟨[], some "connection refused"⟩) []
    sampleRequest sampleEnv "connection refused" [] rfl rfl
  ⟨rfl, h.2.2.1, h.2.1⟩

/-! ## The context resolver, a sequence of requests -/

theorem serveAll_append (client : MergeRequestLister)
    (before later : List (HandlerFunc × Request)) (c : Env) :
    (serveAll client (before ++ later) c).2
      = (serveAll client later (serveAll client before c).2).2 := by
  induction before generalizing c with
  | nil => rfl
  | cons p rest ih =>
    obtain ⟨next, r⟩ := p
    simp only [List.cons_append, serveAll]
    exact ih _

theorem withMr_step_unresolved (next : HandlerFunc) (client : MergeRequestLister)
    (w : ResponseWriter) (r : Request) (c : Env) (hkeep : KeepsSession next)
    (hzero : c.projectInfo.MergeId = 0) :
    ∃ k : ListCall,
      (withMr next client w r c).2.calls = c.calls ++ [k] ∧
      ((k.resolved = none ∧ (withMr next client w r c).2.projectInfo.MergeId = 0) ∨
       (∃ id : Int, k.resolved = some id ∧ id ≠ 0 ∧
          (withMr next client w r c).2.projectInfo.MergeId = id)) := by
  refine ⟨⟨c.projectInfo.ProjectId, withMr.options c,
    client c.calls c.projectInfo.ProjectId (withMr.options c)⟩, ?_⟩
  rcases hres : client c.calls c.projectInfo.ProjectId (withMr.options c) with ⟨found, err⟩
  cases err with
  | some e =>
    simp [withMr, withMr.resolve, hzero, hres, ListCall.resolved]
  | none =>
    cases found with
    | nil => simp [withMr, withMr.resolve, hzero, hres, ListCall.resolved]
    | cons mr rest =>
      have h1 := (hkeep w r
        { projectInfo := { ProjectId := c.projectInfo.ProjectId, MergeId := mr.IID }
          gitInfo := c.gitInfo
          calls := c.calls ++ [⟨c.projectInfo.ProjectId, withMr.options c,
            ⟨mr :: rest, none⟩⟩] })
      by_cases hid : mr.IID = 0
      · simp [withMr, withMr.resolve, hzero, hres, ListCall.resolved, hid, h1.1, h1.2] at h1 ⊢
        simp [h1.1, h1.2]
      · simp [withMr, withMr.resolve, hzero, hres, ListCall.resolved, hid, h1.1, h1.2]

theorem withMr_step_resolved (next : HandlerFunc) (client : MergeRequestLister)
    (w : ResponseWriter) (r : Request) (c : Env) (hkeep : KeepsSession next)
    (hset : c.projectInfo.MergeId ≠ 0) :
    (withMr next client w r c).2.calls = c.calls ∧
    (withMr next client w r c).2.projectInfo.MergeId = c.projectInfo.MergeId := by
  have h := hkeep w r c
  simp [withMr, withMr.resolve, hset, h.1, h.2]

theorem serveAll_resolved (client : MergeRequestLister)
    (reqs : List (HandlerFunc × Request)) (c : Env)
    (hkeep : ∀ p ∈ reqs, KeepsSession p.1)
    (hset : c.projectInfo.MergeId ≠ 0) :
    (serveAll client reqs c).2.calls = c.calls ∧
    (serveAll client reqs c).2.projectInfo.MergeId = c.projectInfo.MergeId := by
  induction reqs generalizing c with
  | nil => exact ⟨rfl, rfl⟩
  | cons p rest ih =>
    obtain ⟨next, r⟩ := p
    have hstep := withMr_step_resolved next client [] r c
      (hkeep (next, r) (List.mem_cons_self _ _)) hset
    have hrest := ih (withMr next client [] r c).2
      (fun q hq => hkeep q (List.mem_cons_of_mem _ hq)) (by rw [hstep.2]; exact hset)
    simp only [serveAll]
    exact ⟨hrest.1.trans hstep.1, hrest.2.trans hstep.2⟩

theorem serveAll_unresolved (client : MergeRequestLister)
    (reqs : List (HandlerFunc × Request)) (c : Env)
    (hkeep : ∀ p ∈ reqs, KeepsSession p.1)
    (hzero : c.projectInfo.MergeId = 0) :
    ∃ made : List ListCall,
      (serveAll client reqs c).2.calls = c.calls ++ made ∧
      ((made.filterMap ListCall.resolved = [] ∧
          (serveAll client reqs c).2.projectInfo.MergeId = 0) ∨
       (∃ id : Int, made.filterMap ListCall.resolved = [id] ∧ id ≠ 0 ∧
          (serveAll client reqs c).2.projectInfo.MergeId = id)) := by
  induction reqs generalizing c with
  | nil => exact ⟨[], by simp [serveAll], Or.inl ⟨rfl, hzero⟩⟩
  | cons p rest ih =>
    obtain ⟨next, r⟩ := p
    obtain ⟨k, hcalls, hk⟩ := withMr_step_unresolved next client [] r c
      (hkeep (next, r) (List.mem_cons_self _ _)) hzero
    have hkeep2 : ∀ q ∈ rest, KeepsSession q.1 :=
      fun q hq => hkeep q (List.mem_cons_of_mem _ hq)
    rcases hk with ⟨hnone, hmid⟩ | ⟨id, hsome, hne, hmid⟩
    · obtain ⟨made, hmade, hcase⟩ := ih (withMr next client [] r c).2 hkeep2 hmid
      refine ⟨k :: made, ?_, ?_⟩
      · simp only [serveAll]
        rw [hmade, hcalls]
        simp
      · simp only [serveAll, List.filterMap_cons, hnone]
        exact hcase
    · have hrest := serveAll_resolved client rest (withMr next client [] r c).2 hkeep2
        (by rw [hmid]; exact hne)
      refine ⟨[k], ?_, Or.inr ⟨id, ?_, hne, ?_⟩⟩
      · simp only [serveAll]
        rw [hrest.1, hcalls]
      · simp [List.filterMap_cons, hsome]
      · simp only [serveAll]
        rw [hrest.2, hmid]

/-- C5 as stated fails: a lister whose answer is, each time, the one merge
request with IID 0 returns a non-empty list without error to both of two
requests served in a row, and the session is still unresolved afterwards. -/
theorem serveAll_two_lookups_find_some :
    sampleEnv.projectInfo.MergeId = 0 ∧
    KeepsSession okHandler ∧
    ((serveAll (listerOf ⟨[⟨0⟩], none⟩)
        [(okHandler, sampleRequest), (okHandler, sampleRequest)] sampleEnv).2.calls.filter
      ListCall.foundSome).length = 2 ∧
    (serveAll (listerOf ⟨[⟨0⟩], none⟩)
        [(okHandler, sampleRequest), (okHandler, sampleRequest)] sampleEnv).2.projectInfo.MergeId
      = 0 :=
  ⟨rfl, fun _ _ _ => ⟨rfl, rfl⟩, by decide, by decide⟩

/-- C5, amended. Requests are served one after another by handlers wrapped in
`withMr` that share one session, starting from `MergeId = 0`, against an
arbitrary lister; the wrapped handlers leave the session alone. Then at most
one lookup of the whole sequence returns, without error, a non-empty list whose
first IID is not 0; and once the requests served so far (`served`) include such
a lookup, the requests after them (`later`) make no lookup and `MergeId` is the
IID found, before and after them. -/
theorem serveAll_resolves_once (client : MergeRequestLister)
    (served later : List (HandlerFunc × Request)) (c : Env)
    (hkeep : ∀ p ∈ served ++ later, KeepsSession p.1)
    (hzero : c.projectInfo.MergeId = 0) :
    ∃ made madeLater : List ListCall,
      (serveAll client served c).2.calls = c.calls ++ made ∧
      (serveAll client (served ++ later) c).2.calls = c.calls ++ made ++ madeLater ∧
      ((made ++ madeLater).filterMap ListCall.resolved).length ≤ 1 ∧
      ∀ id ∈ made.filterMap ListCall.resolved,
        madeLater = [] ∧
        (serveAll client served c).2.projectInfo.MergeId = id ∧
        (serveAll client (served ++ later) c).2.projectInfo.MergeId = id := by
  have hk1 : ∀ p ∈ served, KeepsSession p.1 :=
    fun p hp => hkeep p (List.mem_append_left _ hp)
  have hk2 : ∀ p ∈ later, KeepsSession p.1 :=
    fun p hp => hkeep p (List.mem_append_right _ hp)
  obtain ⟨made, hmade, hcase⟩ := serveAll_unresolved client served c hk1 hzero
  rw [serveAll_append]
  rcases hcase with ⟨hnone, hmid⟩ | ⟨id, hone, hne, hmid⟩
  · obtain ⟨madeLater, hlater, hcase2⟩ :=
      serveAll_unresolved client later (serveAll client served c).2 hk2 hmid
    refine ⟨made, madeLater, hmade, by rw [hlater, hmade], ?_, ?_⟩
    · rw [List.filterMap_append, hnone, List.nil_append]
      rcases hcase2 with ⟨h, _⟩ | ⟨id, h, _, _⟩ <;> simp [h]
    · intro id hid
      rw [hnone] at hid
      exact absurd hid (List.not_mem_nil _)
  · have hrest := serveAll_resolved client later (serveAll client served c).2 hk2
      (by rw [hmid]; exact hne)
    refine ⟨made, [], hmade, by rw [hrest.1, hmade, List.append_nil], ?_, ?_⟩
    · simp [hone]
    · intro id2 hid2
      rw [hone, List.mem_singleton] at hid2
      subst hid2
      exact ⟨rfl, hmid, by rw [hrest.2, hmid]⟩

/-- Witness of C5, amended: three requests in a row against a lister that
finds merge request 7; the first request resolves the session, the two later
ones make no lookup. -/
theorem serveAll_resolves_once_witness :
    sampleEnv.projectInfo.MergeId = 0 ∧
    KeepsSession okHandler ∧
    (serveAll (listerOf ⟨[⟨7⟩], none⟩) [(okHandler, sampleRequest)] sampleEnv).2.calls.length
      = 1 ∧
    (serveAll (listerOf ⟨[⟨7⟩], none⟩)
      ([(okHandler, sampleRequest)] ++ [(okHandler, sampleRequest), (okHandler, sampleRequest)])
      sampleEnv).2.calls.length = 1 ∧
    ∃ made madeLater : List ListCall,
      (serveAll (listerOf ⟨[⟨7⟩], none⟩) [(okHandler, sampleRequest)] sampleEnv).2.calls
        = sampleEnv.calls ++ made ∧
      (serveAll (listerOf ⟨[⟨7⟩], none⟩)
        ([(okHandler, sampleRequest)] ++ [(okHandler, sampleRequest), (okHandler, sampleRequest)])
        sampleEnv).2.calls = sampleEnv.calls ++ made ++ madeLater ∧
      ((made ++ madeLater).filterMap ListCall.resolved).length ≤ 1 ∧
      ∀ id ∈ made.filterMap ListCall.resolved,
        madeLater = [] ∧
        (serveAll (listerOf ⟨[⟨7⟩], none⟩) [(okHandler, sampleRequest)]
          sampleEnv).2.projectInfo.MergeId = id ∧
        (serveAll (listerOf ⟨[⟨7⟩], none⟩)
          ([(okHandler, sampleRequest)] ++
            [(okHandler, sampleRequest), (okHandler, sampleRequest)])
          sampleEnv).2.projectInfo.MergeId = id :=
  ⟨rfl, fun _ _ _ => ⟨rfl, rfl⟩, by decide, by decide,
   serveAll_resolves_once (listerOf ⟨[⟨7⟩], none⟩) [(okHandler, sampleRequest)]
     [(okHandler, sampleRequest), (okHandler, sampleRequest)] sampleEnv
     (fun _ hp => by
       simp only [List.mem_append, List.mem_cons, List.mem_singleton, List.not_mem_nil,
         or_false, or_self] at hp
       subst hp
       exact fun _ _ _ => ⟨rfl, rfl⟩)
     rfl⟩

/-! ## The context resolver under concurrent requests -/

theorem Goroutine.step_effect (client : MergeRequestLister) (c : Env) (g : Goroutine)
    (hkeep : KeepsSession g.next) :
    (g.step client c).2.next = g.next ∧
    ∃ k : List ListCall,
      (g.step client c).1.calls = c.calls ++ k ∧
      (g.step client c).2.lookups = g.lookups + k.length ∧
      k.length + (g.step client c).2.pc.mayLookup.toNat ≤ g.pc.mayLookup.toNat ∧
      (k ≠ [] ∨
        (g.pc.mayLookup = true → c.projectInfo.MergeId = 0 →
          (g.step client c).1.projectInfo.MergeId = 0 ∧
          (g.step client c).2.pc.mayLookup = true)) := by
  obtain ⟨next, r, w, pc, seen, lookups⟩ := g
  cases pc with
  | check =>
    by_cases h : c.projectInfo.MergeId = 0
    · refine ⟨by simp [Goroutine.step, h], [], ?_⟩
      simp [Goroutine.step, h, Pc.mayLookup]
    · refine ⟨by simp [Goroutine.step, h], [], ?_⟩
      simp [Goroutine.step, h, Pc.mayLookup]
  | lookup =>
    rcases hres : client c.calls c.projectInfo.ProjectId (withMr.options c) with ⟨found, err⟩
    refine ⟨?_, [⟨c.projectInfo.ProjectId, withMr.options c, ⟨found, err⟩⟩], ?_⟩
    · cases err <;> cases found <;> simp [Goroutine.step, hres]
    · cases err <;> cases found <;> simp [Goroutine.step, hres, Pc.mayLookup]
  | store id =>
    refine ⟨by simp [Goroutine.step], [], ?_⟩
    simp [Goroutine.step, Pc.mayLookup]
  | callNext =>
    have h : (next w r c).2.calls = c.calls := (hkeep w r c).2
    refine ⟨by simp [Goroutine.step], [], ?_⟩
    simp [Goroutine.step, Pc.mayLookup, h]
  | done =>
    refine ⟨by simp [Goroutine.step], [], ?_⟩
    simp [Goroutine.step, Pc.mayLookup]

theorem stepAt_effect (client : MergeRequestLister) (i : Nat) (c : Env)
    (gs : List Goroutine) (hkeep : ∀ g ∈ gs, KeepsSession g.next) :
    (stepAt client i c gs).2.length = gs.length ∧
    (∀ g ∈ (stepAt client i c gs).2, KeepsSession g.next) ∧
    ∃ k : List ListCall,
      (stepAt client i c gs).1.calls = c.calls ++ k ∧
      ((stepAt client i c gs).2.map Goroutine.lookups).sum
        = (gs.map Goroutine.lookups).sum + k.length ∧
      ((∀ g ∈ gs, g.lookups + g.pc.mayLookup.toNat ≤ 1) →
        ∀ g ∈ (stepAt client i c gs).2, g.lookups + g.pc.mayLookup.toNat ≤ 1) ∧
      (k ≠ [] ∨
        ((∀ g ∈ gs, g.pc.mayLookup = true) → c.projectInfo.MergeId = 0 →
          (stepAt client i c gs).1.projectInfo.MergeId = 0 ∧
          ∀ g ∈ (stepAt client i c gs).2, g.pc.mayLookup = true)) := by
  induction gs generalizing i with
  | nil =>
    refine ⟨by simp [stepAt], by simp [stepAt], [], by simp [stepAt], by simp [stepAt],
      by simp [stepAt], ?_⟩
    exact Or.inr (fun _ h => ⟨by simpa [stepAt] using h, by simp [stepAt]⟩)
  | cons g gs ih =>
    have hg : KeepsSession g.next := hkeep g (List.mem_cons_self _ _)
    have hgs : ∀ q ∈ gs, KeepsSession q.next :=
      fun q hq => hkeep q (List.mem_cons_of_mem _ hq)
    cases i with
    | zero =>
      obtain ⟨hnext, k, hcalls, hlook, hcount, hcase⟩ := Goroutine.step_effect client c g hg
      refine ⟨by simp [stepAt], ?_, k, by simpa [stepAt] using hcalls, ?_, ?_, ?_⟩
      · intro q hq
        simp only [stepAt, List.mem_cons] at hq
        rcases hq with rfl | hq
        · rw [hnext]; exact hg
        · exact hgs q hq
      · simp only [stepAt, List.map_cons, List.sum_cons, hlook]
        omega
      · intro hall q hq
        simp only [stepAt, List.mem_cons] at hq
        rcases hq with rfl | hq
        · have := hall g (List.mem_cons_self _ _)
          omega
        · exact hall q (List.mem_cons_of_mem _ hq)
      · rcases hcase with hk | hcase
        · exact Or.inl hk
        · refine Or.inr (fun hall hzero => ?_)
          have h := hcase (hall g (List.mem_cons_self _ _)) hzero
          refine ⟨by simpa [stepAt] using h.1, ?_⟩
          intro q hq
          simp only [stepAt, List.mem_cons] at hq
          rcases hq with rfl | hq
          · exact h.2
          · exact hall q (List.mem_cons_of_mem _ hq)
    | succ i =>
      obtain ⟨hlen, hk2, k, hcalls, hsum, hone, hcase⟩ := ih i hgs
      refine ⟨by simp [stepAt, hlen], ?_, k, by simpa [stepAt] using hcalls, ?_, ?_, ?_⟩
      · intro q hq
        simp only [stepAt, List.mem_cons] at hq
        rcases hq with rfl | hq
        · exact hg
        · exact hk2 q hq
      · simp only [stepAt, List.map_cons, List.sum_cons, hsum]
        omega
      · intro hall q hq
        simp only [stepAt, List.mem_cons] at hq
        rcases hq with rfl | hq
        · exact hall _ (List.mem_cons_self _ _)
        · exact hone (fun q2 hq2 => hall q2 (List.mem_cons_of_mem _ hq2)) q hq
      · rcases hcase with hk | hcase
        · exact Or.inl hk
        · refine Or.inr (fun hall hzero => ?_)
          have h := hcase (fun q hq => hall q (List.mem_cons_of_mem _ hq)) hzero
          refine ⟨by simpa [stepAt] using h.1, ?_⟩
          intro q hq
          simp only [stepAt, List.mem_cons] at hq
          rcases hq with rfl | hq
          · exact hall _ (List.mem_cons_self _ _)
          · exact h.2 q hq

theorem runSchedule_effect (client : MergeRequestLister) (schedule : List Nat) (c : Env)
    (gs : List Goroutine) (hkeep : ∀ g ∈ gs, KeepsSession g.next) :
    (runSchedule client schedule c gs).2.length = gs.length ∧
    ∃ k : List ListCall,
      (runSchedule client schedule c gs).1.calls = c.calls ++ k ∧
      ((runSchedule client schedule c gs).2.map Goroutine.lookups).sum
        = (gs.map Goroutine.lookups).sum + k.length ∧
      ((∀ g ∈ gs, g.lookups + g.pc.mayLookup.toNat ≤ 1) →
        ∀ g ∈ (runSchedule client schedule c gs).2,
          g.lookups + g.pc.mayLookup.toNat ≤ 1) ∧
      (k ≠ [] ∨
        ((∀ g ∈ gs, g.pc.mayLookup = true) → c.projectInfo.MergeId = 0 →
          (runSchedule client schedule c gs).1.projectInfo.MergeId = 0 ∧
          ∀ g ∈ (runSchedule client schedule c gs).2, g.pc.mayLookup = true)) := by
  induction schedule generalizing c gs with
  | nil =>
    refine ⟨rfl, [], by simp [runSchedule], by simp [runSchedule],
      fun hall => by simpa [runSchedule] using hall, ?_⟩
    exact Or.inr (fun hall hzero => ⟨hzero, hall⟩)
  | cons i rest ih =>
    obtain ⟨hlen1, hkeep1, k1, hcalls1, hsum1, hone1, hcase1⟩ :=
      stepAt_effect client i c gs hkeep
    obtain ⟨hlen2, k2, hcalls2, hsum2, hone2, hcase2⟩ :=
      ih (stepAt client i c gs).1 (stepAt client i c gs).2 hkeep1
    refine ⟨by simp only [runSchedule]; rw [hlen2, hlen1], k1 ++ k2, ?_, ?_, ?_, ?_⟩
    · simp only [runSchedule]
      rw [hcalls2, hcalls1, List.append_assoc]
    · simp only [runSchedule, List.length_append]
      omega
    · intro hall
      simpa only [runSchedule] using hone2 (hone1 hall)
    · rcases hcase1 with hk1 | hcase1
      · exact Or.inl (by simp [hk1])
      · rcases hcase2 with hk2 | hcase2
        · exact Or.inl (by simp [hk2])
        · refine Or.inr (fun hall hzero => ?_)
          have h1 := hcase1 hall hzero
          simpa only [runSchedule] using hcase2 h1.2 h1.1

theorem arrive_mayLookup (reqs : List (HandlerFunc × Request)) :
    (∀ g ∈ arrive reqs, g.pc.mayLookup = true ∧ g.lookups = 0) ∧
    ((arrive reqs).map Goroutine.lookups).sum = 0 ∧
    (arrive reqs).length = reqs.length := by
  refine ⟨?_, ?_, by simp [arrive]⟩
  · intro g hg
    simp only [arrive, List.mem_map] at hg
    obtain ⟨p, _, rfl⟩ := hg
    exact ⟨rfl, rfl⟩
  · induction reqs with
    | nil => rfl
    | cons p rest ih =>
      simp only [arrive, List.map_cons, List.sum_cons] at ih ⊢
      rw [ih]

theorem lookups_sum_le_length (gs : List Goroutine) (hone : ∀ g ∈ gs, g.lookups ≤ 1) :
    (gs.map Goroutine.lookups).sum ≤ gs.length := by
  induction gs with
  | nil => simp
  | cons g gs ih =>
    have h1 := hone g (List.mem_cons_self _ _)
    have h2 := ih (fun q hq => hone q (List.mem_cons_of_mem _ hq))
    simp only [List.map_cons, List.sum_cons, List.length_cons]
    omega

theorem Goroutine.step_settled (client : MergeRequestLister) (c : Env) (g : Goroutine)
    (id : Int) (hid : id ≠ 0) (hc : c.projectInfo.MergeId = id) (hg : g.settled id) :
    (g.step client c).1.projectInfo.MergeId = id ∧
    (g.step client c).1.calls = c.calls ∧
    (g.step client c).2.settled id := by
  obtain ⟨next, r, w, pc, seen, lookups⟩ := g
  obtain ⟨hkeep, hpc, hseen, hdone⟩ := hg
  simp only at hkeep hpc hseen hdone
  have hne : c.projectInfo.MergeId ≠ 0 := by rw [hc]; exact hid
  have hk : (next w r c).2.projectInfo.MergeId = c.projectInfo.MergeId ∧
      (next w r c).2.calls = c.calls := hkeep w r c
  cases pc with
  | check =>
    have e : Goroutine.step client c ⟨next, r, w, Pc.check, seen, lookups⟩
        = (c, ⟨next, r, w, Pc.callNext, seen, lookups⟩) := by
      simp [Goroutine.step, hne]
    rw [e]
    exact ⟨hc, rfl, hkeep, Or.inr (Or.inl rfl), hseen, fun h => by cases h⟩
  | lookup => simp at hpc
  | store mergeIdInt => simp at hpc
  | callNext =>
    have e : Goroutine.step client c ⟨next, r, w, Pc.callNext, seen, lookups⟩
        = ((next w r c).2,
           ⟨next, r, (next w r c).1, Pc.done, some c.projectInfo.MergeId, lookups⟩) := by
      simp [Goroutine.step]
    rw [e]
    exact ⟨hk.1.trans hc, hk.2, hkeep, Or.inr (Or.inr rfl), Or.inr (by rw [hc]),
      fun _ => by rw [hc]⟩
  | done =>
    have e : Goroutine.step client c ⟨next, r, w, Pc.done, seen, lookups⟩
        = (c, ⟨next, r, w, Pc.done, seen, lookups⟩) := by
      simp [Goroutine.step]
    rw [e]
    exact ⟨hc, rfl, hkeep, Or.inr (Or.inr rfl), hseen, hdone⟩

theorem stepAt_settled (client : MergeRequestLister) (i : Nat) (c : Env)
    (gs : List Goroutine) (id : Int) (hid : id ≠ 0) (hc : c.projectInfo.MergeId = id)
    (hall : ∀ g ∈ gs, g.settled id) :
    (stepAt client i c gs).1.projectInfo.MergeId = id ∧
    (stepAt client i c gs).1.calls = c.calls ∧
    (stepAt client i c gs).2.length = gs.length ∧
    ∀ g ∈ (stepAt client i c gs).2, g.settled id := by
  induction gs generalizing i with
  | nil => cases i <;> simp [stepAt, hc]
  | cons g gs ih =>
    cases i with
    | zero =>
      obtain ⟨h1, h2, h3⟩ :=
        Goroutine.step_settled client c g id hid hc (hall g (List.mem_cons_self _ _))
      refine ⟨by simpa [stepAt] using h1, by simpa [stepAt] using h2, by simp [stepAt], ?_⟩
      intro q hq
      simp only [stepAt, List.mem_cons] at hq
      rcases hq with rfl | hq
      · exact h3
      · exact hall q (List.mem_cons_of_mem _ hq)
    | succ i =>
      obtain ⟨h1, h2, h3, h4⟩ := ih i (fun q hq => hall q (List.mem_cons_of_mem _ hq))
      refine ⟨by simpa [stepAt] using h1, by simpa [stepAt] using h2,
        by simp [stepAt, h3], ?_⟩
      intro q hq
      simp only [stepAt, List.mem_cons] at hq
      rcases hq with rfl | hq
      · exact hall _ (List.mem_cons_self _ _)
      · exact h4 q hq

theorem runSchedule_settled (client : MergeRequestLister) (schedule : List Nat) (c : Env)
    (gs : List Goroutine) (id : Int) (hid : id ≠ 0) (hc : c.projectInfo.MergeId = id)
    (hall : ∀ g ∈ gs, g.settled id) :
    (runSchedule client schedule c gs).1.projectInfo.MergeId = id ∧
    (runSchedule client schedule c gs).1.calls = c.calls ∧
    (runSchedule client schedule c gs).2.length = gs.length ∧
    ∀ g ∈ (runSchedule client schedule c gs).2, g.settled id := by
  induction schedule generalizing c gs with
  | nil => exact ⟨hc, rfl, rfl, hall⟩
  | cons i rest ih =>
    obtain ⟨h1, h2, h3, h4⟩ := stepAt_settled client i c gs id hid hc hall
    obtain ⟨k1, k2, k3, k4⟩ :=
      ih (stepAt client i c gs).1 (stepAt client i c gs).2 h1 h4
    simp only [runSchedule]
    exact ⟨k1, k2.trans h2, k3.trans h3, k4⟩

theorem stepAt_eq_set (client : MergeRequestLister) (i : Nat) (c : Env)
    (gs : List Goroutine) (g : Goroutine) (hg : gs[i]? = some g) :
    stepAt client i c gs = ((g.step client c).1, gs.set i (g.step client c).2) := by
  induction gs generalizing i with
  | nil => simp at hg
  | cons q gs ih =>
    cases i with
    | zero =>
      simp only [List.getElem?_cons_zero, Option.some.injEq] at hg
      subst hg
      rfl
    | succ i =>
      simp only [List.getElem?_cons_succ] at hg
      simp only [stepAt, ih i hg, List.set_cons_succ]

/-- The step machine agrees with `withMr`: a goroutine that runs alone reaches
`done` within four steps, and leaves the response writer and the shared state
that `withMr` computes. -/
theorem solo_run_is_withMr (next : HandlerFunc) (client : MergeRequestLister)
    (r : Request) (c : Env) :
    (runSchedule client [0, 0, 0, 0] c (arrive [(next, r)])).1
      = (withMr next client [] r c).2 ∧
    (runSchedule client [0, 0, 0, 0] c (arrive [(next, r)])).2.map (fun g => (g.w, g.pc))
      = [((withMr next client [] r c).1, Pc.done)] := by
  by_cases hzero : c.projectInfo.MergeId = 0
  · rcases hres : client c.calls c.projectInfo.ProjectId (withMr.options c) with ⟨found, err⟩
    cases err with
    | some e =>
      simp [runSchedule, stepAt, arrive, Goroutine.step, withMr, withMr.resolve, hzero, hres]
    | none =>
      cases found with
      | nil =>
        simp [runSchedule, stepAt, arrive, Goroutine.step, withMr, withMr.resolve, hzero, hres]
      | cons mr rest =>
        simp [runSchedule, stepAt, arrive, Goroutine.step, withMr, withMr.resolve, hzero,
          hres]
  · simp [runSchedule, stepAt, arrive, Goroutine.step, withMr, withMr.resolve, hzero]

/-- C6 as stated fails: two requests arrive while `MergeId` is 0; both read
`MergeId` before either stores it, so both make the lookup (two calls, not
one), and with a lister that finds merge request 7 first and 9 afterwards the
wrapped handler of the first request is called with `MergeId = 7` and that of
the second with `MergeId = 9`. -/
theorem concurrent_requests_both_look_up :
    sampleEnv.projectInfo.MergeId = 0 ∧
    (runSchedule listerSevenThenNine [0, 1, 0, 0, 0, 1, 1, 1] sampleEnv
        (arrive [(okHandler, sampleRequest), (okHandler, sampleRequest)])).1.calls.length
      = 2 ∧
    (runSchedule listerSevenThenNine [0, 1, 0, 0, 0, 1, 1, 1] sampleEnv
        (arrive [(okHandler, sampleRequest), (okHandler, sampleRequest)])).2.map
        (fun g => (g.pc, g.seen))
      = [(Pc.done, some 7), (Pc.done, some 9)] := by
  decide

/-- C6, amended. N requests arrive while `MergeId` is 0 and their steps
interleave in any order; the wrapped handlers leave the session alone.
`withMr` takes no lock, so (first part, for every schedule) each request makes
at most one lookup, the lookups made are those of the N requests, at most N in
all, and at least one has been made by the time all N requests have returned.
When (second part) one request completes its read of `MergeId`, its lookup,
which returns no error and a non-empty list whose first IID is not 0, and its
store before any other request reads `MergeId`, then however the remaining
steps interleave the lookup is made exactly once, `MergeId` is that IID, every
wrapped handler that is called is called with `MergeId` equal to it, and once
all N requests have returned each of them has been. -/
theorem concurrent_resolution (client : MergeRequestLister)
    (reqs : List (HandlerFunc × Request)) (c : Env) (schedule : List Nat)
    (i : Nat) (rest : List Nat) (mr : MergeRequest) (more : List MergeRequest)
    (hkeep : ∀ p ∈ reqs, KeepsSession p.1)
    (hzero : c.projectInfo.MergeId = 0) :
    (∃ made : List ListCall,
      (runSchedule client schedule c (arrive reqs)).1.calls = c.calls ++ made ∧
      made.length
        = ((runSchedule client schedule c (arrive reqs)).2.map Goroutine.lookups).sum ∧
      (∀ g ∈ (runSchedule client schedule c (arrive reqs)).2, g.lookups ≤ 1) ∧
      (runSchedule client schedule c (arrive reqs)).2.length = reqs.length ∧
      made.length ≤ reqs.length ∧
      (reqs ≠ [] → allDone (runSchedule client schedule c (arrive reqs)).2 = true →
        1 ≤ made.length)) ∧
    (i < reqs.length →
      client c.calls c.projectInfo.ProjectId (withMr.options c)
        = { mergeRequests := mr :: more, err := none } →
      mr.IID ≠ 0 →
      (runSchedule client (i :: i :: i :: rest) c (arrive reqs)).1.calls
        = c.calls ++ [{ pid := c.projectInfo.ProjectId, opt := withMr.options c,
                        result := { mergeRequests := mr :: more, err := none } }] ∧
      (runSchedule client (i :: i :: i :: rest) c (arrive reqs)).1.projectInfo.MergeId
        = mr.IID ∧
      (runSchedule client (i :: i :: i :: rest) c (arrive reqs)).2.length = reqs.length ∧
      (∀ g ∈ (runSchedule client (i :: i :: i :: rest) c (arrive reqs)).2,
        g.seen = none ∨ g.seen = some mr.IID) ∧
      (allDone (runSchedule client (i :: i :: i :: rest) c (arrive reqs)).2 = true →
        ∀ g ∈ (runSchedule client (i :: i :: i :: rest) c (arrive reqs)).2,
          g.seen = some mr.IID)) := by
  have hk : ∀ g ∈ arrive reqs, KeepsSession g.next := by
    intro g hg
    simp only [arrive, List.mem_map] at hg
    obtain ⟨p, hp, rfl⟩ := hg
    exact hkeep p hp
  obtain ⟨hall, hsum0, hlen⟩ := arrive_mayLookup reqs
  constructor
  · obtain ⟨hlen2, made, hcalls, hsum, hone, hcase⟩ :=
      runSchedule_effect client schedule c (arrive reqs) hk
    have hone2 : ∀ g ∈ (runSchedule client schedule c (arrive reqs)).2, g.lookups ≤ 1 := by
      intro g hg
      have := hone (fun q hq => by
        have h := hall q hq
        rw [h.1, h.2]
        decide) g hg
      omega
    have hbound := lookups_sum_le_length _ hone2
    rw [hsum0, Nat.zero_add] at hsum
    refine ⟨made, hcalls, hsum.symm, hone2, by rw [hlen2, hlen], by omega, ?_⟩
    intro hne hdone
    rcases hcase with hmade | hcase
    · exact List.length_pos.mpr hmade
    · exfalso
      have h := (hcase (fun q hq => (hall q hq).1) hzero).2
      cases hgs : (runSchedule client schedule c (arrive reqs)).2 with
      | nil =>
        rw [hgs, hlen] at hlen2
        exact hne (List.length_eq_zero.mp hlen2.symm)
      | cons g gs =>
        rw [hgs] at h hdone
        have h1 := h g (List.mem_cons_self _ _)
        simp only [allDone, List.all_cons, Bool.and_eq_true, decide_eq_true_eq] at hdone
        rw [hdone.1] at h1
        exact absurd h1 (by decide)
  · intro hi hres hid
    have hi2 : i < (arrive reqs).length := by rw [hlen]; exact hi
    have hkeepi : KeepsSession reqs[i].1 := hkeep _ (List.getElem_mem _)
    have h0 : (arrive reqs)[i]?
        = some ⟨reqs[i].1, reqs[i].2, [], Pc.check, none, 0⟩ := by
      simp [arrive, List.getElem?_eq_getElem hi]
    have e1 : Goroutine.step client c ⟨reqs[i].1, reqs[i].2, [], Pc.check, none, 0⟩
        = (c, ⟨reqs[i].1, reqs[i].2, [], Pc.lookup, none, 0⟩) := by
      simp [Goroutine.step, hzero]
    have e2 : Goroutine.step client c ⟨reqs[i].1, reqs[i].2, [], Pc.lookup, none, 0⟩
        = ({ c with calls := c.calls ++ [⟨c.projectInfo.ProjectId, withMr.options c,
                ⟨mr :: more, none⟩⟩] },
           ⟨reqs[i].1, reqs[i].2, [], Pc.store mr.IID, none, 1⟩) := by
      simp [Goroutine.step, hres]
    have e3 : Goroutine.step client
          { c with calls := c.calls ++ [⟨c.projectInfo.ProjectId, withMr.options c,
                ⟨mr :: more, none⟩⟩] }
          ⟨reqs[i].1, reqs[i].2, [], Pc.store mr.IID, none, 1⟩
        = ({ projectInfo := { c.projectInfo with MergeId := mr.IID }
             gitInfo := c.gitInfo
             calls := c.calls ++ [⟨c.projectInfo.ProjectId, withMr.options c,
                ⟨mr :: more, none⟩⟩] },
           ⟨reqs[i].1, reqs[i].2, [], Pc.callNext, none, 1⟩) := by
      simp [Goroutine.step]
    have s1 := stepAt_eq_set client i c (arrive reqs) _ h0
    rw [e1] at s1
    have s2 := stepAt_eq_set client i c
      ((arrive reqs).set i ⟨reqs[i].1, reqs[i].2, [], Pc.lookup, none, 0⟩) _
      (List.getElem?_set_self hi2)
    rw [e2, List.set_set] at s2
    have s3 := stepAt_eq_set client i
      { c with calls := c.calls ++ [⟨c.projectInfo.ProjectId, withMr.options c,
                ⟨mr :: more, none⟩⟩] }
      ((arrive reqs).set i ⟨reqs[i].1, reqs[i].2, [], Pc.store mr.IID, none, 1⟩) _
      (List.getElem?_set_self hi2)
    rw [e3, List.set_set] at s3
    have hsettled : ∀ g ∈ (arrive reqs).set i
        ⟨reqs[i].1, reqs[i].2, [], Pc.callNext, none, 1⟩, g.settled mr.IID := by
      intro g hg
      rcases List.mem_or_eq_of_mem_set hg with hg | rfl
      · have hkg := hk g hg
        simp only [arrive, List.mem_map] at hg
        obtain ⟨p, _, rfl⟩ := hg
        exact ⟨hkg, Or.inl rfl, Or.inl rfl, fun h => by cases h⟩
      · exact ⟨hkeepi, Or.inr (Or.inl rfl), Or.inl rfl, fun h => by cases h⟩
    obtain ⟨r1, r2, r3, r4⟩ := runSchedule_settled client rest
      { projectInfo := { c.projectInfo with MergeId := mr.IID }
        gitInfo := c.gitInfo
        calls := c.calls ++ [⟨c.projectInfo.ProjectId, withMr.options c,
                ⟨mr :: more, none⟩⟩] }
      ((arrive reqs).set i ⟨reqs[i].1, reqs[i].2, [], Pc.callNext, none, 1⟩)
      mr.IID hid rfl hsettled
    simp only [runSchedule, s1, s2, s3]
    refine ⟨r2, r1, by rw [r3, List.length_set, hlen], fun g hg => (r4 g hg).2.2.1, ?_⟩
    intro hdone g hg
    have hpc : g.pc = Pc.done := by
      simp only [allDone, List.all_eq_true, decide_eq_true_eq] at hdone
      exact hdone g hg
    exact (r4 g hg).2.2.2 hpc

/-- Witness of C6, amended: two requests against a lister that finds merge
request 7 first and 9 afterwards. Under the schedule in which both read
`MergeId` before either stores it, each makes one lookup. Under the schedule in
which request 0 reads, looks up and stores first, one lookup is made and both
wrapped handlers are called with `MergeId = 7`. -/
theorem concurrent_resolution_witness :
    sampleEnv.projectInfo.MergeId = 0 ∧
    KeepsSession okHandler ∧
    (runSchedule listerSevenThenNine [0, 1, 0, 0, 0, 1, 1, 1] sampleEnv
        (arrive [(okHandler, sampleRequest), (okHandler, sampleRequest)])).2.map
        Goroutine.lookups = [1, 1] ∧
    (runSchedule listerSevenThenNine [0, 0, 0, 1, 0, 1] sampleEnv
        (arrive [(okHandler, sampleRequest), (okHandler, sampleRequest)])).1.calls.length
      = 1 ∧
    (runSchedule listerSevenThenNine [0, 0, 0, 1, 0, 1] sampleEnv
        (arrive [(okHandler, sampleRequest), (okHandler, sampleRequest)])).2.map
        (fun g => (g.pc, g.seen, g.lookups))
      = [(Pc.done, some 7, 1), (Pc.done, some 7, 0)] ∧
    ((∃ made : List ListCall,
      (runSchedule listerSevenThenNine [0, 1, 0, 0, 0, 1, 1, 1] sampleEnv
        (arrive [(okHandler, sampleRequest), (okHandler, sampleRequest)])).1.calls
        = sampleEnv.calls ++ made ∧
      made.length
        = ((runSchedule listerSevenThenNine [0, 1, 0, 0, 0, 1, 1, 1] sampleEnv
            (arrive [(okHandler, sampleRequest), (okHandler, sampleRequest)])).2.map
            Goroutine.lookups).sum ∧
      (∀ g ∈ (runSchedule listerSevenThenNine [0, 1, 0, 0, 0, 1, 1, 1] sampleEnv
          (arrive [(okHandler, sampleRequest), (okHandler, sampleRequest)])).2,
        g.lookups ≤ 1) ∧
      (runSchedule listerSevenThenNine [0, 1, 0, 0, 0, 1, 1, 1] sampleEnv
          (arrive [(okHandler, sampleRequest), (okHandler, sampleRequest)])).2.length
        = [(okHandler, sampleRequest), (okHandler, sampleRequest)].length ∧
      made.length ≤ [(okHandler, sampleRequest), (okHandler, sampleRequest)].length ∧
      ([(okHandler, sampleRequest), (okHandler, sampleRequest)] ≠ [] →
        allDone (runSchedule listerSevenThenNine [0, 1, 0, 0, 0, 1, 1, 1] sampleEnv
          (arrive [(okHandler, sampleRequest), (okHandler, sampleRequest)])).2 = true →
        1 ≤ made.length)) ∧
     (0 < [(okHandler, sampleRequest), (okHandler, sampleRequest)].length →
      listerSevenThenNine sampleEnv.calls sampleEnv.projectInfo.ProjectId
          (withMr.options sampleEnv)
        = { mergeRequests := (⟨7⟩ : MergeRequest) :: [], err := none } →
      (⟨7⟩ : MergeRequest).IID ≠ 0 →
      (runSchedule listerSevenThenNine (0 :: 0 :: 0 :: [1, 0, 1]) sampleEnv
          (arrive [(okHandler, sampleRequest), (okHandler, sampleRequest)])).1.calls
        = sampleEnv.calls ++
            [{ pid := sampleEnv.projectInfo.ProjectId, opt := withMr.options sampleEnv,
               result := { mergeRequests := (⟨7⟩ : MergeRequest) :: [], err := none } }] ∧
      (runSchedule listerSevenThenNine (0 :: 0 :: 0 :: [1, 0, 1]) sampleEnv
          (arrive [(okHandler, sampleRequest),
            (okHandler, sampleRequest)])).1.projectInfo.MergeId
        = (⟨7⟩ : MergeRequest).IID ∧
      (runSchedule listerSevenThenNine (0 :: 0 :: 0 :: [1, 0, 1]) sampleEnv
          (arrive [(okHandler, sampleRequest), (okHandler, sampleRequest)])).2.length
        = [(okHandler, sampleRequest), (okHandler, sampleRequest)].length ∧
      (∀ g ∈ (runSchedule listerSevenThenNine (0 :: 0 :: 0 :: [1, 0, 1]) sampleEnv
          (arrive [(okHandler, sampleRequest), (okHandler, sampleRequest)])).2,
        g.seen = none ∨ g.seen = some (⟨7⟩ : MergeRequest).IID) ∧
      (allDone (runSchedule listerSevenThenNine (0 :: 0 :: 0 :: [1, 0, 1]) sampleEnv
          (arrive [(okHandler, sampleRequest), (okHandler, sampleRequest)])).2 = true →
        ∀ g ∈ (runSchedule listerSevenThenNine (0 :: 0 :: 0 :: [1, 0, 1]) sampleEnv
            (arrive [(okHandler, sampleRequest), (okHandler, sampleRequest)])).2,
          g.seen = some (⟨7⟩ : MergeRequest).IID))) :=
  ⟨rfl, fun _ _ _ => ⟨rfl, rfl⟩, by decide, by decide, by decide,
   concurrent_resolution listerSevenThenNine
     [(okHandler, sampleRequest), (okHandler, sampleRequest)] sampleEnv
     [0, 1, 0, 0, 0, 1, 1, 1] 0 [1, 0, 1] ⟨7⟩ []
     (fun _ hp => by
       simp only [List.mem_cons, List.mem_singleton, List.not_mem_nil, or_false,
         or_self] at hp
       subst hp
       exact fun _ _ _ => ⟨rfl, rfl⟩)
     rfl⟩

/-! ## The error envelope -/

/-- C9. For every error text, message and status code, `Client.handleError`
calls `WriteHeader` with that status and then encodes one `ErrorResponse` whose
status is that same code, whose message is the message given and whose details
are the text of the error; on the wire the object has the members "status",
"message" and "details" with these values and no other member. -/
theorem Client_handleError_envelope (c : Client) (w : ResponseWriter) (err : String)
    (message : String) (status : Int) :
    c.handleError w err message status
      = w ++ [WriterCall.WriteHeader status,
              WriterCall.Encode { Status := status, Message := message, Details := err }] ∧
    ErrorResponse.jsonField { Status := status, Message := message, Details := err }
        "status" = some (JsonValue.num status) ∧
    ErrorResponse.jsonField { Status := status, Message := message, Details := err }
        "message" = some (JsonValue.str message) ∧
    ErrorResponse.jsonField { Status := status, Message := message, Details := err }
        "details" = some (JsonValue.str err) ∧
    ∀ key : String,
      ErrorResponse.jsonField { Status := status, Message := message, Details := err } key
          = none ∨
        key = "status" ∨ key = "message" ∨ key = "details" := by
  refine ⟨by simp [Client.handleError], by simp [ErrorResponse.jsonField],
    by simp [ErrorResponse.jsonField], by simp [ErrorResponse.jsonField], ?_⟩
  intro key
  unfold ErrorResponse.jsonField
  by_cases h1 : key = "status"
  · simp [h1]
  · by_cases h2 : key = "message"
    · simp [h2]
    · by_cases h3 : key = "details"
      · simp [h3]
      · simp [h1, h2, h3]

/-! ## The readiness probe -/

/-- C7, the code at the failing input: when the first probe fails with a
transport error, `http.Get` returns a nil response and `checkServer` panics on
`resp.StatusCode` after that one attempt; it neither counts the attempt as
failed nor goes on to the second probe, which would have been answered with
status 200. -/
theorem checkServer_panics_on_transport_error :
    checkServer refusedOnce 8080
      = { attempts := 1, sleeps := 0,
          result := Outcome.panicked "invalid memory address or nil pointer dereference" } ∧
    refusedOnce 0 "http://localhost:8080/ping"
      = { resp := none, err := some "dial tcp 127.0.0.1:8080: connect: connection refused" } ∧
    refusedOnce 1 "http://localhost:8080/ping"
      = { resp := some { StatusCode := 200 }, err := none } := by
  decide

theorem checkServer.loop_ready (httpGet : Nat → String → GetResult) (port : Int)
    (remaining i k : Nat) (hik : i ≤ k) (hk : k < i + remaining)
    (hready : (httpGet k (pingURL port)).ready = true)
    (hbefore : ∀ j, i ≤ j → j < k →
      (httpGet j (pingURL port)).resp ≠ none ∧ (httpGet j (pingURL port)).ready = false) :
    checkServer.loop httpGet port remaining i
      = { attempts := k + 1, sleeps := k, result := Outcome.returned none } := by
  induction remaining generalizing i with
  | zero => omega
  | succ n ih =>
    by_cases hi : i = k
    · subst hi
      unfold checkServer.loop
      simp only [GetResult.ready, pingURL] at hready
      cases hresp : (httpGet i ("http://localhost:" ++ fmtInt port ++ "/ping")).resp with
      | none => simp [hresp] at hready
      | some resp =>
        simp only [hresp, decide_eq_true_eq] at hready
        simp only [hresp, hready, and_self, if_true]
    · have hlt : i < k := by omega
      obtain ⟨hresp, hnot⟩ := hbefore i (le_refl i) hlt
      have hrest := ih (i + 1) (by omega) (by omega)
        (fun j hj hjk => hbefore j (by omega) hjk)
      unfold checkServer.loop
      simp only [GetResult.ready, pingURL] at hresp hnot
      cases hr : (httpGet i ("http://localhost:" ++ fmtInt port ++ "/ping")).resp with
      | none => exact absurd hr hresp
      | some resp =>
        simp only [hr, decide_eq_false_iff_not] at hnot
        simp only [hr, hnot, if_false]
        exact hrest

theorem checkServer.loop_exhausted (httpGet : Nat → String → GetResult) (port : Int)
    (remaining i : Nat)
    (hnever : ∀ j, i ≤ j → j < i + remaining →
      (httpGet j (pingURL port)).resp ≠ none ∧ (httpGet j (pingURL port)).ready = false) :
    checkServer.loop httpGet port remaining i
      = { attempts := i + remaining, sleeps := i + remaining,
          result := Outcome.returned (some "Could not start server!") } := by
  induction remaining generalizing i with
  | zero => simp [checkServer.loop]
  | succ n ih =>
    obtain ⟨hresp, hnot⟩ := hnever i (le_refl i) (by omega)
    have hrest := ih (i + 1) (fun j hj hjk => hnever j (by omega) (by omega))
    unfold checkServer.loop
    simp only [GetResult.ready, pingURL] at hresp hnot
    cases hr : (httpGet i ("http://localhost:" ++ fmtInt port ++ "/ping")).resp with
    | none => exact absurd hr hresp
    | some resp =>
      simp only [hr, decide_eq_false_iff_not] at hnot
      simp only [hr, hnot, if_false]
      rw [hrest]
      simp only [CheckRun.mk.injEq, and_true]
      omega

theorem checkServer.loop_attempts (httpGet : Nat → String → GetResult) (port : Int)
    (remaining i : Nat) :
    (checkServer.loop httpGet port remaining i).attempts ≤ i + remaining := by
  induction remaining generalizing i with
  | zero => simp [checkServer.loop]
  | succ n ih =>
    unfold checkServer.loop
    cases hr : (httpGet i ("http://localhost:" ++ fmtInt port ++ "/ping")).resp with
    | none => simp only [hr]; omega
    | some resp =>
      simp only [hr]
      split
      · simp only []; omega
      · have := ih (i + 1); omega

/-- `checkServer` never makes more than 10 probes. When every probe up to
the first ready one (status 200, no error) at least yields a response,
`checkServer` returns nil right after that probe, without probing further. -/
theorem checkServer_returns_at_first_ready (httpGet : Nat → String → GetResult)
    (port : Int) (k : Nat) (hk : k < 10)
    (hready : (httpGet k (pingURL port)).ready = true)
    (hbefore : ∀ j, j < k →
      (httpGet j (pingURL port)).resp ≠ none ∧ (httpGet j (pingURL port)).ready = false) :
    checkServer httpGet port
      = { attempts := k + 1, sleeps := k, result := Outcome.returned none } ∧
    (checkServer httpGet port).attempts ≤ 10 := by
  have h := checkServer.loop_ready httpGet port 10 0 k (Nat.zero_le k) (by omega) hready
    (fun j _ hjk => hbefore j hjk)
  refine ⟨h, ?_⟩
  have := checkServer.loop_attempts httpGet port 10 0
  simpa [checkServer] using this

/-- An instance of the previous theorem: the third probe is the first ready one. -/
theorem checkServer_returns_at_first_ready_witness :
    (readyAtThird 2 (pingURL 8080)).ready = true ∧
    checkServer readyAtThird 8080
      = { attempts := 3, sleeps := 2, result := Outcome.returned none } ∧
    (checkServer readyAtThird 8080).attempts ≤ 10 :=
  ⟨by decide,
   checkServer_returns_at_first_ready readyAtThird 8080 2 (by decide) (by decide)
     (fun j hj => by
       have hj2 : j = 0 ∨ j = 1 := by omega
       rcases hj2 with rfl | rfl <;> exact ⟨by decide, by decide⟩)⟩

/-- When each of the 10 probes yields a response and none is ready (status
200, no error), `checkServer` makes exactly 10 probes and returns the error
"Could not start server!". -/
theorem checkServer_gives_up_after_ten (httpGet : Nat → String → GetResult) (port : Int)
    (hnever : ∀ j, j < 10 →
      (httpGet j (pingURL port)).resp ≠ none ∧ (httpGet j (pingURL port)).ready = false) :
    checkServer httpGet port
      = { attempts := 10, sleeps := 10,
          result := Outcome.returned (some "Could not start server!") } := by
  have h := checkServer.loop_exhausted httpGet port 10 0
    (fun j _ hj => hnever j (by omega))
  simpa [checkServer] using h

/-- An instance of the previous theorem: every probe is answered with status 503. -/
theorem checkServer_gives_up_after_ten_witness :
    checkServer (fun _ _ => { resp := some { StatusCode := 503 }, err := none }) 8080
      = { attempts := 10, sleeps := 10,
          result := Outcome.returned (some "Could not start server!") } :=
  checkServer_gives_up_after_ten
    (fun _ _ => { resp := some { StatusCode := 503 }, err := none }) 8080
    (fun _ _ => ⟨by simp, rfl⟩)

/-! ## Start-up of the client -/

/-- C8, the code at the failing input: with exactly the four required values
in the argument vector and an empty project identifier, `Client.init` panics on
`os.Args[5]` instead of returning an error (it makes no remote call and leaves
the client as it was). -/
theorem Client_init_panics_without_debug_settings (sys : InitSys) (c : Client)
    (branchName : String) :
    argsEmptyProject.length = 5 ∧
    argsEmptyProject[1]? = some "" ∧
    Client.init sys argsEmptyProject c branchName
      = { client := c, remoteCalls := [],
          result := Outcome.panicked "index out of range [5] with length 5" } := by
  refine ⟨rfl, rfl, ?_⟩
  simp [Client.init, argsEmptyProject, index]
  decide

theorem index_lt (osArgs : List String) (i : Nat) (h : i < osArgs.length) :
    index osArgs i = Outcome.returned osArgs[i] := by
  simp [index, List.getElem?_eq_getElem h]

/-- For an argument vector of fewer than five entries, and for one of at
least six entries whose project identifier, GitLab instance URL or auth token
is the empty string, `Client.init` returns a non-nil error, makes no remote
API call and leaves the client as it was (in particular `mergeId` and `git`). -/
theorem Client_init_rejects (sys : InitSys) (osArgs : List String) (c : Client)
    (branchName : String)
    (hargs : osArgs.length < 5 ∨
      (6 ≤ osArgs.length ∧
        (osArgs[1]? = some "" ∨ osArgs[2]? = some "" ∨ osArgs[4]? = some ""))) :
    ∃ e : String,
      Client.init sys osArgs c branchName
        = { client := c, remoteCalls := [], result := Outcome.returned (some e) } := by
  rcases hargs with hshort | ⟨hlen, hempty⟩
  · exact ⟨"Must provide project ID, gitlab instance, port, and auth token!",
      by simp [Client.init, hshort]⟩
  · have h1 : 1 < osArgs.length := by omega
    have h2 : 2 < osArgs.length := by omega
    have h4 : 4 < osArgs.length := by omega
    have h5 : 5 < osArgs.length := by omega
    have hl : osArgs.length - 1 < osArgs.length := by omega
    have hn : ¬ osArgs.length < 5 := by omega
    rw [List.getElem?_eq_getElem h1, List.getElem?_eq_getElem h2,
      List.getElem?_eq_getElem h4] at hempty
    simp only [Option.some.injEq] at hempty
    unfold Client.init
    simp only [hn, if_false, index_lt osArgs 1 h1, index_lt osArgs 2 h2,
      index_lt osArgs 4 h4, index_lt osArgs 5 h5, index_lt osArgs _ hl]
    cases sys.jsonUnmarshal osArgs[5] with
    | error err => exact ⟨_, rfl⟩
    | ok debugObject =>
      simp only []
      by_cases hp : osArgs[1] = ""
      · exact ⟨"Project ID cannot be empty", by simp [hp]⟩
      · by_cases hg : osArgs[2] = ""
        · exact ⟨"GitLab instance URL cannot be empty", by simp [hp, hg]⟩
        · have ht : osArgs[4] = "" := by
            rcases hempty with h | h | h
            · exact absurd h hp
            · exact absurd h hg
            · exact h
          exact ⟨"Auth token cannot be empty", by simp [hp, hg, ht]⟩

/-- An instance of the previous theorem: six arguments with an empty auth token, against library
calls that would all succeed. -/
theorem Client_init_rejects_witness :
    (6 ≤ argsEmptyToken.length ∧ argsEmptyToken[4]? = some "") ∧
    ∃ e : String,
      Client.init friendlySys argsEmptyToken freshClient "feature"
        = { client := freshClient, remoteCalls := [],
            result := Outcome.returned (some e) } :=
  ⟨by decide,
   Client_init_rejects friendlySys argsEmptyToken freshClient "feature"
     (Or.inr ⟨by decide, Or.inr (Or.inr (by decide))⟩)⟩

/-! ## The attachment middleware -/

/-- C10, the code at the failing input: when the file named by the request
opens but cannot be read, `FileMiddleware` writes the 400 error response
"Error reading file /tmp" and then runs the next handler on the writer that
already holds it. -/
theorem FileMiddleware_runs_next_after_read_error :
    (∀ (σ : Type) (next : Handler σ) (w : ResponseWriter) (s : σ),
      FileMiddleware dirSys next w attachDirRequest s
        = next
            (w ++ [WriterCall.WriteHeader 400,
                   WriterCall.Encode
                     { Status := 400, Message := "Error reading file /tmp",
                       Details := "read /tmp: is a directory" }])
            { attachDirRequest with Context := [("fileReader", "")] } s) ∧
    (FileMiddleware dirSys okService [] attachDirRequest ()).1
      = [WriterCall.WriteHeader 400,
         WriterCall.Encode
           { Status := 400, Message := "Error reading file /tmp",
             Details := "read /tmp: is a directory" },
         WriterCall.WriteHeader 200] := by
  refine ⟨?_, by decide⟩
  intro σ next w s
  rfl

/-- When reading the opened file does not fail, `FileMiddleware` does one
of two things, whatever the other outcomes are: it writes one 400 error
response and returns without running the next handler, or it writes nothing
and its result is one run of the next handler on the untouched writer. -/
theorem FileMiddleware_error_or_next {σ : Type} (sys : FileSys) (w : ResponseWriter)
    (r : Request) (s : σ)
    (hread : ∀ file : String, (sys.readFile file).2 = none) :
    (∃ e message : String, ∀ next : Handler σ,
        FileMiddleware sys next w r s = (HandleError w e message 400, s)) ∨
    (∃ requestWithReader : Request, ∀ next : Handler σ,
        FileMiddleware sys next w r s = next w requestWithReader s) := by
  unfold FileMiddleware
  rcases hbody : sys.readBody r with ⟨body, err⟩
  cases err with
  | some e => exact Or.inl ⟨_, _, fun _ => rfl⟩
  | none =>
    rcases hparse : sys.jsonUnmarshal body with ⟨attachmentRequest, err1⟩
    cases err1 with
    | some e =>
      exact Or.inl ⟨e, "Could not unmarshal JSON", fun _ => by
        simp [hparse, StatusBadRequest]⟩
    | none =>
      cases hopen : sys.osOpen attachmentRequest.FilePath with
      | error e =>
        exact Or.inl ⟨e, "Could not read " ++ attachmentRequest.FilePath, fun _ => by
          simp [hparse, hopen, StatusBadRequest]⟩
      | ok file =>
        rcases hfile : sys.readFile file with ⟨data, err2⟩
        have h := hread file
        rw [hfile] at h
        simp only at h
        subst h
        exact Or.inr ⟨{ r with Context := [(fileReaderKey, data)], Body := body },
          fun _ => by simp [hparse, hopen, hfile]⟩

/-- An instance of the previous theorem: a request whose file opens and is read. -/
theorem FileMiddleware_error_or_next_witness :
    (FileMiddleware fileSys okService [] attachDirRequest ()).1
      = [WriterCall.WriteHeader 200] ∧
    ((∃ e message : String, ∀ next : Handler Unit,
        FileMiddleware fileSys next [] attachDirRequest ()
          = (HandleError [] e message 400, ())) ∨
     (∃ requestWithReader : Request, ∀ next : Handler Unit,
        FileMiddleware fileSys next [] attachDirRequest ()
          = next [] requestWithReader ())) :=
  ⟨by decide,
   FileMiddleware_error_or_next fileSys [] attachDirRequest () (fun _ => rfl)⟩

end GitlabNvim
